import Mathlib

/-!
Verification of the cockpit backend core against its specification.

This file gives a shallow embedding, in Lean 4, of the pure control logic of
the backend's core subsystems, translated from the Python sources:

* the device-set boolean query engine (`services/ansible_inventory.py`),
* the TTL cache (`services/cache_service.py`),
* the Git SSL environment scoping and `open_or_clone`
  (`services/git_utils.py`, `routers/scan_and_add.py`),
* the scan subsystem (`services/scan_service.py`, `routers/scan_and_add.py`).

External I/O (GraphQL queries, ICMP pings, SSH sessions, the filesystem,
`git` child processes) is modelled by oracle parameters: a function-valued
environment records, for each possible call, the answer the outside world
would give.  Everything on this side of the oracle boundary is translated
statement by statement from the source.
-/

namespace Cockpit

/-! ### Device-set query engine (`services/ansible_inventory.py`)

Devices are identified by their ids; we use `ℕ` for ids and `Finset ℕ` for
the device-id sets that the Python code manipulates as `Set[str]` (Python
string ids are in bijection with the values the oracle hands out, so a
numeric carrier loses nothing).  The resolution of one leaf condition via a
GraphQL query (`_execute_condition`) is the oracle boundary. -/

/-- A leaf condition (`LogicalCondition` in `models/ansible_inventory.py`). -/
structure LogicalCondition where
  field : String
  operator : String
  value : String
deriving DecidableEq

/-- A logical operation (`LogicalOperation` in `models/ansible_inventory.py`):
an operation-type string (`"AND" | "OR" | "NOT"` up to case), leaf conditions,
and nested operations. -/
inductive LogicalOperation : Type where
  | mk (operation_type : String) (conditions : List LogicalCondition)
       (nested_operations : List LogicalOperation)

/-- The operation-type string of an operation. -/
def LogicalOperation.operation_type : LogicalOperation → String
  | .mk t _ _ => t

/-- Oracle for `_execute_condition`: the device-id set the GraphQL query for a
condition returns.  (`_execute_condition` also reports a query count of 1 and
per-device data; the claims under study concern the id sets only.) -/
abbrev CondEnv := LogicalCondition → Finset ℕ

/-- Python's `str.upper()` (exact for the ASCII operation-type strings the
engine compares, `"AND" | "OR" | "NOT"` up to case). -/
def py_upper (s : String) : String := String.mk (s.data.map Char.toUpper)

/-- `_intersect_sets`: intersection of a list of sets; empty list gives `∅`. -/
def intersect_sets : List (Finset ℕ) → Finset ℕ
  | [] => ∅
  | s :: rest => rest.foldl (fun a b => a ∩ b) s

/-- `_union_sets`: union of a list of sets. -/
def union_sets (sets : List (Finset ℕ)) : Finset ℕ :=
  sets.foldl (fun a b => a ∪ b) ∅

/-- The combination step at the end of `_execute_operation`: `AND` is
intersection, `OR` is union, `NOT` is the union of the children (the negation
itself is applied by the top-level combiner), an unknown type gives `∅`. -/
def combine_results (operation_type : String) (rs : List (Finset ℕ)) : Finset ℕ :=
  if py_upper operation_type = "AND" then intersect_sets rs
  else if py_upper operation_type = "OR" then union_sets rs
  else if py_upper operation_type = "NOT" then
    (if rs.isEmpty then ∅ else union_sets rs)
  else ∅

mutual

/-- `_execute_operation`: evaluate conditions, then nested operations, and
combine all child sets according to the operation type. -/
def execute_operation (env : CondEnv) : LogicalOperation → Finset ℕ
  | .mk t conds nested =>
      combine_results t (conds.map env ++ execute_operations env nested)
termination_by structural op => op

/-- Evaluation of a list of nested operations, in order. -/
def execute_operations (env : CondEnv) : List LogicalOperation → List (Finset ℕ)
  | [] => []
  | op :: rest => execute_operation env op :: execute_operations env rest
termination_by structural ops => ops

end

/-- One iteration of the top-level loop of `preview_inventory`.  Note the
Python guard is `if not result_devices:` — it fires whenever the accumulator
is *empty*, not only on the literally first operation. -/
def preview_step (env : CondEnv) (acc : Finset ℕ) (op : LogicalOperation) : Finset ℕ :=
  let opRes := execute_operation env op
  if acc = ∅ then
    (if py_upper op.operation_type = "NOT" then ∅ else opRes)
  else
    (if py_upper op.operation_type = "NOT" then acc \ opRes else acc ∩ opRes)

/-- `preview_inventory`: fold the top-level operations over an initially empty
accumulator.  (The Python function finally converts the id set to a device
list; the claims concern the id set.) -/
def preview_inventory (env : CondEnv) (operations : List LogicalOperation) : Finset ℕ :=
  operations.foldl (preview_step env) ∅

/-! ### TTL cache (`services/cache_service.py`)

Keys and payloads are opaque to the cache; we carry both as `ℕ`.  Wall-clock
time (`time.time()`) is passed explicitly to each operation. -/

/-- `CacheEntry`: stored data plus its absolute expiry time. -/
structure CacheEntry where
  data : ℕ
  expires_at : ℕ
deriving DecidableEq

/-- The `_cache` dict of `CacheService`, as a map from keys to entries. -/
abbrev CacheStore := ℕ → Option CacheEntry

/-- `CacheService.get` at time `now`: a live entry (`expires_at > now`,
strictly) is returned and left in place; an entry at or past its expiry is
deleted and a miss is returned; a missing key is a miss.  Returns the answer
and the store after the call. -/
def cache_get (store : CacheStore) (key now : ℕ) : Option ℕ × CacheStore :=
  match store key with
  | some entry =>
      if now < entry.expires_at then (some entry.data, store)
      else (none, fun k => if k = key then none else store k)
  | none => (none, store)

/-- `CacheService.set` at time `now`: unconditionally overwrite the key with
an entry expiring at `now + ttl_seconds`. -/
def cache_set (store : CacheStore) (key data ttl_seconds now : ℕ) : CacheStore :=
  fun k => if k = key then some ⟨data, now + ttl_seconds⟩ else store k

/-- One recorded `set` call: key, data, TTL, and the time of the call. -/
structure SetEvent where
  key : ℕ
  data : ℕ
  ttl_seconds : ℕ
  now : ℕ
deriving DecidableEq

/-- The expiry a `set` call installs. -/
def SetEvent.expires_at (e : SetEvent) : ℕ := e.now + e.ttl_seconds

/-- Replay a history of `set` calls against the empty store. -/
def run_sets (history : List SetEvent) : CacheStore :=
  history.foldl (fun s e => cache_set s e.key e.data e.ttl_seconds e.now) (fun _ => none)

/-- Modelled from the spec: the claim's description of `get` — "the value of
the most recent `set` for `K` whose `expires_at` is strictly greater than
`t`, and otherwise a miss".  This is the claimed behaviour, written from the
claim's words for comparison with `cache_get`; it scans the whole history for
the latest still-live `set`. -/
def claimed_get (history : List SetEvent) (key t : ℕ) : Option ℕ :=
  history.foldl
    (fun acc e => if e.key = key ∧ t < e.expires_at then some e.data else acc) none

/-- The most recent `set` event for a key, irrespective of expiry. -/
def last_set_for (history : List SetEvent) (key : ℕ) : Option SetEvent :=
  history.foldl (fun acc e => if e.key = key then some e else acc) none

/-! ### Git SSL environment scoping

Two code paths mutate the Git SSL environment variables:

* `set_ssl_env` in `services/git_utils.py` — a context manager that snapshots
  `GIT_SSL_NO_VERIFY`, `GIT_SSL_CA_INFO` and `GIT_SSL_CERT`, applies the
  repository's settings, and in a `finally:` block restores each variable to
  its snapshot (popping it when it was previously absent);
* the push step of `_create_linux_inventory` in `routers/scan_and_add.py` —
  sets `GIT_SSL_NO_VERIFY = "1"` when `verify_ssl` is false and, in its
  `finally:` block, *deletes* the variable when it had set it.

The environment is modelled as the three affected variables, each
`Option String` (`none` = unset).  A scoped body is an arbitrary transformer
of the environment together with a flag recording whether it raised; the
`finally:` blocks run in either case. -/

/-- The three Git SSL environment variables. -/
structure SslEnv where
  git_ssl_no_verify : Option String
  git_ssl_ca_info : Option String
  git_ssl_cert : Option String
deriving DecidableEq

/-- The repository fields `set_ssl_env` reads (`verify_ssl`, and the optional
`ssl_ca_info` / `ssl_cert` paths; absent or empty strings are `none`,
matching Python truthiness). -/
structure SslRepoConfig where
  verify_ssl : Bool
  ssl_ca_info : Option String
  ssl_cert : Option String

/-- The mutation phase of `set_ssl_env`: `GIT_SSL_NO_VERIFY = "1"` when
verification is off, then the optional CA / cert paths. -/
def apply_ssl_settings (repo : SslRepoConfig) (env : SslEnv) : SslEnv :=
  let env1 := if repo.verify_ssl then env
              else { env with git_ssl_no_verify := some "1" }
  let env2 := match repo.ssl_ca_info with
    | some v => { env1 with git_ssl_ca_info := some v }
    | none => env1
  match repo.ssl_cert with
  | some v => { env2 with git_ssl_cert := some v }
  | none => env2

/-- `set_ssl_env` as a whole: snapshot, mutate, run the body (which may itself
rewrite the environment and may raise — the second component of its result),
then restore every snapshotted variable on either exit path. -/
def set_ssl_env (repo : SslRepoConfig) (body : SslEnv → SslEnv × Bool)
    (env0 : SslEnv) : SslEnv × Bool :=
  let original := env0
  let r := body (apply_ssl_settings repo env0)
  ({ r.1 with git_ssl_no_verify := original.git_ssl_no_verify,
              git_ssl_ca_info := original.git_ssl_ca_info,
              git_ssl_cert := original.git_ssl_cert }, r.2)

/-- The SSL scoping around `origin.push` in `_create_linux_inventory`
(`routers/scan_and_add.py`): when `verify_ssl` is false the variable is set to
`"1"` and `ssl_env_set` is recorded; the `finally:` block then *deletes* the
variable (rather than restoring a snapshot).  The push itself does not touch
the environment, and a push exception is caught and logged, so the body's
outcome does not affect the environment. -/
def push_ssl_block (verify_ssl : Bool) (env0 : SslEnv) : SslEnv :=
  let ssl_env_set := !verify_ssl
  let env1 := if verify_ssl then env0
              else { env0 with git_ssl_no_verify := some "1" }
  if ssl_env_set then { env1 with git_ssl_no_verify := none } else env1

/-! ### Git URLs and `open_or_clone` (`services/git_utils.py`)

URLs are modelled structurally, one field per component of Python's
`urlparse` result (`userinfo` is the part of the netloc before `@`).
Percent-encoding of injected credentials is left as the raw strings: the
claims only ever look at URLs through `normalize_git_url`, which discards the
userinfo entirely.  The filesystem and the `git` binary are oracles: a
`DiskState` records whether `Repo(repo_dir)` opens (and with which `origin`
URL) and whether a fresh `Repo.clone_from` would succeed. -/

/-- A parsed Git URL. -/
structure GitUrl where
  scheme : String
  userinfo : Option String
  host : String
  path : String
  query : String
  fragment : String
deriving DecidableEq

/-- `normalize_git_url`: strip the userinfo from the netloc and rebuild with
empty params/query/fragment; scheme, host and path survive. -/
def normalize_git_url (u : GitUrl) : GitUrl :=
  { scheme := u.scheme, userinfo := none, host := u.host, path := u.path,
    query := "", fragment := "" }

/-- `add_auth_to_url`: on an `http(s)` URL with a token, replace any existing
userinfo with `username:token` (username defaulting to `"git"`); other
schemes, or a missing token, leave the URL unchanged. -/
def add_auth_to_url (u : GitUrl) (username token : Option String) : GitUrl :=
  if u.scheme = "http" ∨ u.scheme = "https" then
    match token with
    | none => u
    | some tok => { u with userinfo := some ((username.getD "git") ++ ":" ++ tok) }
  else u

/-- The repository metadata `open_or_clone` reads. -/
structure RepoConfig where
  url : Option GitUrl
  username : Option String
  token : Option String
  branch : Option String

/-- An on-disk working tree as GitPython reports it: its `origin` remote URL,
or `none` when the repository has no readable `origin` (no remotes, or the
lookup raises). -/
structure RepoOnDisk where
  origin_url : Option GitUrl
deriving DecidableEq

/-- Oracle for the filesystem and the `git` binary at the repository's path:
whether `Repo(repo_dir)` opens (and what it contains), and whether a fresh
clone would succeed. -/
structure DiskState where
  open_result : Option RepoOnDisk
  clone_succeeds : Bool

/-- The handle `open_or_clone` returns: the working tree, and whether it was
produced by removing the directory and cloning afresh. -/
structure OpenOutcome where
  repo : RepoOnDisk
  recloned : Bool
deriving DecidableEq

/-- The re-clone path of `open_or_clone`: remove the directory, then
`Repo.clone_from(add_auth_to_url(url, username, token), repo_dir, branch)`.
On success the new working tree's `origin` is the clone URL; on failure the
exception propagates (`none`). -/
def clone_fresh (cfg : RepoConfig) (d : DiskState) : Option OpenOutcome :=
  if d.clone_succeeds then
    some ⟨⟨cfg.url.map (fun u => add_auth_to_url u cfg.username cfg.token)⟩, true⟩
  else none

/-- `open_or_clone`: open the existing working tree; when both the configured
URL and the on-disk `origin` URL are readable and their normalizations
differ, fall through to the re-clone path; when opening fails, clone.  A
working tree whose `origin` cannot be read skips the comparison and is
returned as-is. -/
def open_or_clone (cfg : RepoConfig) (d : DiskState) : Option OpenOutcome :=
  match d.open_result with
  | some r =>
      match cfg.url, r.origin_url with
      | some u, some cu =>
          if normalize_git_url cu ≠ normalize_git_url u then clone_fresh cfg d
          else some ⟨r, false⟩
      | _, _ => some ⟨r, false⟩
  | none => clone_fresh cfg d

/-! ### Scan subsystem (`services/scan_service.py`, `routers/scan_and_add.py`)

IPv4 addresses are carried as their 32-bit numeric values (`ℕ`); the Python
code's dotted-string rendering is a bijection on them.  The network I/O of a
host worker — the ICMP probe and the per-credential authentication attempt
(`_try_authentication`, which wraps the NAPALM drivers or the SSH probes) —
is the oracle boundary, as is the credential store (`list_credentials` /
`get_decrypted_password`).

Concurrency: `_run_scan` fans the targets out to workers bounded by a
semaphore.  Counter and result mutations of a worker happen in adjacent
statements with no `await` between them, so each is a single atomic block
under the asyncio interleaving; the supervisor's final state is the fold of
the per-host blocks in completion order.  The fold below takes the targets in
an arbitrary order (the membership and counting claims are stated up to
permutation), and an `abort_after` oracle cuts the run short to model a
supervisor aborted by an exception. -/

/-- Configuration constants of `services/scan_service.py`. -/
def MAX_CONCURRENCY : ℕ := 10

/-- Number of ICMP attempts per host (`RETRY_ATTEMPTS`). -/
def RETRY_ATTEMPTS : ℕ := 3

/-- What `_try_authentication` reports on success. -/
structure AuthInfo where
  device_type : String
  hostname : Option String
  platform : Option String
deriving DecidableEq

/-- `ScanResult` (dataclass): one authenticated host. -/
structure ScanResult where
  ip : ℕ
  credential_id : ℕ
  device_type : String
  hostname : Option String
  platform : Option String
deriving DecidableEq

/-- A CIDR as `ipaddress.ip_network(cidr, strict=False)` parses it: the given
address and the prefix length (host bits are masked off by `host_addresses`
below, as `strict=False` does). -/
structure Cidr where
  addr : ℕ
  prefixlen : ℕ
deriving DecidableEq

/-- `ScanJob` (dataclass): counters, state and results of one job.  The
time-based fields `job_id` and `created` (used only for the 24 h TTL purge)
are omitted. -/
structure ScanJob where
  cidrs : List Cidr
  credential_ids : List ℕ
  discovery_mode : String
  total_targets : ℕ
  scanned : ℕ
  alive : ℕ
  authenticated : ℕ
  unreachable : ℕ
  auth_failed : ℕ
  driver_not_supported : ℕ
  state : String
  results : List ScanResult
  errors : List String

/-- A row of the credential store as the scan code reads it. -/
structure Credential where
  username : String
deriving DecidableEq

/-- Oracle environment for one scan run: ICMP answers per host and attempt,
the credential map loaded from `list_credentials()` (which omits expired
rows), the decryption outcomes, the authentication outcomes keyed by host,
username and password, whether `list_credentials()` itself succeeds, and an
optional abort point modelling an exception surfacing out of the worker
gather. -/
structure ScanEnv where
  ping_ok : ℕ → ℕ → Bool
  creds : ℕ → Option Credential
  decrypt : ℕ → Option String
  auth : ℕ → String → String → Option AuthInfo
  creds_load_ok : Bool
  abort_after : Option ℕ

/-- The liveness loop of `_process_ip`: up to `RETRY_ATTEMPTS` pings, alive on
the first success. -/
def host_alive (env : ScanEnv) (ip : ℕ) : Bool :=
  (List.range RETRY_ATTEMPTS).any (fun attempt => env.ping_ok ip attempt)

/-- The credential loop of `_process_ip`, instrumented with the list of
credential ids actually *attempted* (those for which `_try_authentication`
was invoked).  An id missing from the loaded map, or whose password fails to
decrypt, is skipped with `continue` — no attempt happens.  The loop stops at
the first successful attempt. -/
def try_credentials_trace (env : ScanEnv) (ip : ℕ) :
    List ℕ → Option (ℕ × AuthInfo) × List ℕ
  | [] => (none, [])
  | cred_id :: rest =>
    match env.creds cred_id with
    | none => try_credentials_trace env ip rest
    | some cred =>
      match env.decrypt cred_id with
      | none => try_credentials_trace env ip rest
      | some password =>
        match env.auth ip cred.username password with
        | some info => (some (cred_id, info), [cred_id])
        | none =>
          let r := try_credentials_trace env ip rest
          (r.1, cred_id :: r.2)

/-- The outcome of the credential loop: the first credential id that
authenticates, with what the probe reported. -/
def try_credentials (env : ScanEnv) (ip : ℕ) (ids : List ℕ) :
    Option (ℕ × AuthInfo) :=
  (try_credentials_trace env ip ids).1

/-- The `ScanResult` `_process_ip` appends on success. -/
def mk_scan_result (ip cred_id : ℕ) (info : AuthInfo) : ScanResult :=
  ⟨ip, cred_id, info.device_type, info.hostname, info.platform⟩

/-- `_process_ip`: liveness first; an unreachable host bumps `unreachable`
and `scanned`; an alive one bumps `alive`, then walks the credentials — the
first success appends exactly one result and bumps `authenticated` and
`scanned`, exhaustion bumps `auth_failed` and `scanned`. -/
def process_ip (env : ScanEnv) (job : ScanJob) (ip : ℕ) : ScanJob :=
  if host_alive env ip then
    let j := { job with alive := job.alive + 1 }
    match try_credentials env ip job.credential_ids with
    | some (cred_id, info) =>
      { j with results := j.results ++ [mk_scan_result ip cred_id info],
               authenticated := j.authenticated + 1,
               scanned := j.scanned + 1 }
    | none => { j with auth_failed := j.auth_failed + 1, scanned := j.scanned + 1 }
  else
    { job with unreachable := job.unreachable + 1, scanned := job.scanned + 1 }

/-- The credential ids attempted while processing one host: none at all when
the liveness check fails (credential trials happen strictly after liveness). -/
def process_ip_attempts (env : ScanEnv) (job : ScanJob) (ip : ℕ) : List ℕ :=
  if host_alive env ip then (try_credentials_trace env ip job.credential_ids).2 else []

/-- `_run_scan`: when `list_credentials()` raises, the job is finished on the
spot; otherwise the targets (cut short at `abort_after` when the gather is
aborted by an exception, which also records an error) are each processed, and
the job is marked finished in the `finally:` block. -/
def run_scan (env : ScanEnv) (job : ScanJob) (targets : List ℕ) : ScanJob :=
  if env.creds_load_ok then
    let n := match env.abort_after with
      | some k => min k targets.length
      | none => targets.length
    let j := (targets.take n).foldl (process_ip env) job
    let j2 := if (env.abort_after).isSome
              then { j with errors := j.errors ++ ["scan aborted"] } else j
    { j2 with state := "finished" }
  else
    { job with state := "finished" }

/-- `ipaddress.ip_network(..., strict=False).hosts()`: the network base is
the address with host bits cleared; prefixes `/31` and `/32` enumerate every
address, anything shorter excludes the network and broadcast addresses. -/
def host_addresses (c : Cidr) : List ℕ :=
  let size := 2 ^ (32 - c.prefixlen)
  let base := c.addr - c.addr % size
  if 31 ≤ c.prefixlen then (List.range size).map (fun k => base + k)
  else (List.range (size - 2)).map (fun k => base + 1 + k)

/-- The dedup step of `start_job`: append an address unless already seen.
(The Python code keeps a `seen` set beside the `targets` list; they hold the
same members at all times, so the list doubles as the set here.) -/
def insert_target (acc : List ℕ) (ip : ℕ) : List ℕ :=
  if ip ∈ acc then acc else acc ++ [ip]

/-- Target expansion in `start_job`: each CIDR with a prefix shorter than
`/22` is skipped (service-side safety bound), the rest contribute their host
addresses, deduplicated across all CIDRs in first-seen order. -/
def expand_cidrs (cidrs : List Cidr) : List ℕ :=
  cidrs.foldl
    (fun acc c =>
      if c.prefixlen < 22 then acc else (host_addresses c).foldl insert_target acc)
    []

/-- What `start_job` produces: the fresh job, its target list, and the number
of background supervisor tasks spawned (`asyncio.create_task` calls). -/
structure StartOutcome where
  job : ScanJob
  targets : List ℕ
  supervisors : ℕ

/-- `ScanService.start_job`: expand targets, register a fresh `running` job
with zeroed counters, spawn exactly one supervisor task for `_run_scan`. -/
def start_job (cidrs : List Cidr) (credential_ids : List ℕ)
    (discovery_mode : String) : StartOutcome :=
  let targets := expand_cidrs cidrs
  { job := { cidrs := cidrs, credential_ids := credential_ids,
             discovery_mode := discovery_mode, total_targets := targets.length,
             scanned := 0, alive := 0, authenticated := 0, unreachable := 0,
             auth_failed := 0, driver_not_supported := 0, state := "running",
             results := [], errors := [] },
    targets := targets, supervisors := 1 }

/-- The per-host result `_process_ip` contributes to `results`, if any. -/
def host_result (env : ScanEnv) (ids : List ℕ) (ip : ℕ) : Option ScanResult :=
  if host_alive env ip then
    (try_credentials env ip ids).map (fun p => mk_scan_result ip p.1 p.2)
  else none

/-- The counter identity of the spec: every processed host lands in exactly
one terminal bucket. -/
def counters_consistent (j : ScanJob) : Prop :=
  j.scanned = j.authenticated + j.unreachable + j.auth_failed + j.driver_not_supported

/-! #### Request validation (`routers/scan_and_add.py`)

`ScanStartRequest` is validated by pydantic before the endpoint body runs: a
failing validator rejects the request with a validation error and
`ScanService.start_job` is never reached.  CIDRs enter the model already
parsed; `ip_network` itself rejects a prefix beyond `/32` or an address
beyond 32 bits, which is the `"Invalid CIDR format"` case below. -/

/-- The scan start request body (`ScanStartRequest`).  The
`parser_template_ids` field only feeds the `ssh-login` TextFSM parsing and is
omitted. -/
structure ScanStartRequest where
  cidrs : List Cidr
  credential_ids : List ℕ
  discovery_mode : String

/-- The loop of the `cidrs` validator: parse each CIDR (malformed input
raises), enforce the `/22` floor, deduplicate preserving order. -/
def validate_cidrs_go : List Cidr → List Cidr → Except String (List Cidr)
  | [], cleaned => .ok cleaned
  | c :: rest, cleaned =>
    if 32 < c.prefixlen ∨ 2 ^ 32 ≤ c.addr then .error "Invalid CIDR format"
    else if c.prefixlen < 22 then .error "CIDR too large (minimum /22)"
    else validate_cidrs_go rest (if c ∈ cleaned then cleaned else cleaned ++ [c])

/-- The `cidrs` validator: at least one CIDR, then the per-CIDR loop. -/
def validate_cidrs (v : List Cidr) : Except String (List Cidr) :=
  if v.isEmpty then .error "At least one CIDR required" else validate_cidrs_go v []

/-- The `credential_ids` validator. -/
def validate_credential_ids (v : List ℕ) : Except String (List ℕ) :=
  if v.isEmpty then .error "At least one credential ID required" else .ok v

/-- The `discovery_mode` validator. -/
def validate_discovery_mode (m : String) : Except String String :=
  if m = "napalm" ∨ m = "ssh-login" then .ok m
  else .error "discovery_mode must be napalm or ssh-login"

/-- Whole-request validation: the `max_items=10` bound on `cidrs`, then the
three field validators. -/
def validate_scan_start_request (r : ScanStartRequest) :
    Except String ScanStartRequest :=
  if 10 < r.cidrs.length then .error "cidrs accepts at most 10 items"
  else
    match validate_discovery_mode r.discovery_mode with
    | .error e => .error e
    | .ok m =>
      match validate_cidrs r.cidrs with
      | .error e => .error e
      | .ok cs =>
        match validate_credential_ids r.credential_ids with
        | .error e => .error e
        | .ok ids => .ok ⟨cs, ids, m⟩

/-- The `POST /api/scan/start` endpoint against the in-memory job registry:
a validation failure surfaces the error and leaves the registry untouched;
otherwise `start_job` registers a fresh job. -/
def scan_start_endpoint (jobs : List ScanJob) (r : ScanStartRequest) :
    List ScanJob × Except String StartOutcome :=
  match validate_scan_start_request r with
  | .error e => (jobs, .error e)
  | .ok r' =>
    let out := start_job r'.cidrs r'.credential_ids r'.discovery_mode
    (jobs ++ [out.job], .ok out)

/-! #### Worker-pool concurrency (`_run_scan`)

`_run_scan` builds `asyncio.Semaphore(MAX_CONCURRENCY)` and each worker runs
`async with semaphore: await self._process_ip(...)` — the permit is acquired
before any per-host I/O and released on every exit path.  The workers are
symmetric, so the pool is modelled by how many of them are waiting for a
permit, holding one (executing `_process_ip`), or finished; an acquire step
is enabled only below the permit bound. -/

/-- Worker-pool state: how many host workers are waiting on the semaphore,
currently hold a permit, or have finished. -/
structure PoolState where
  waiting : ℕ
  running : ℕ
  finished : ℕ
deriving DecidableEq

/-- The two transitions of the worker pool: acquiring the semaphore (guarded
by the permit count) and releasing it when `_process_ip` returns. -/
inductive PoolStep : PoolState → PoolState → Prop where
  | acquire (s : PoolState) (hw : 0 < s.waiting) (hsem : s.running < MAX_CONCURRENCY) :
      PoolStep s ⟨s.waiting - 1, s.running + 1, s.finished⟩
  | release (s : PoolState) (hr : 0 < s.running) :
      PoolStep s ⟨s.waiting, s.running - 1, s.finished + 1⟩

/-- States reachable from `n` workers all waiting on a fresh semaphore. -/
inductive PoolReachable (n : ℕ) : PoolState → Prop where
  | init : PoolReachable n ⟨n, 0, 0⟩
  | step (s t : PoolState) : PoolReachable n s → PoolStep s t → PoolReachable n t

/-- A credential id is *skipped* by the loop of `_process_ip` when it is
absent from the loaded credential map (`list_credentials()` omits expired
rows) or its password fails to decrypt; no authentication attempt happens. -/
def cred_skipped (env : ScanEnv) (cred_id : ℕ) : Prop :=
  env.creds cred_id = none ∨ env.decrypt cred_id = none

/-- What an actual authentication attempt with a credential would report:
the oracle's answer for the credential's username and decrypted password
(`none` when the credential would be skipped instead). -/
def cred_attempt_result (env : ScanEnv) (ip cred_id : ℕ) : Option AuthInfo :=
  match env.creds cred_id, env.decrypt cred_id with
  | some cred, some password => env.auth ip cred.username password
  | _, _ => none

/-! ### Concrete instances used by the claim theorems below -/

/-- Condition resolved to the empty set in the C1 counterexample. -/
def c1_cond_role : LogicalCondition := ⟨"role", "equals", "edge"⟩

/-- Condition resolved to `{1}` in the C1 counterexample. -/
def c1_cond_loc : LogicalCondition := ⟨"location", "equals", "dc1"⟩

/-- C1 counterexample environment: the role query matches no device, the
location query matches device `1`. -/
def c1_env_cx : CondEnv := fun c => if c = c1_cond_loc then {1} else ∅

/-- First top-level operation of the C1 counterexample (`Q`). -/
def c1_op_q : LogicalOperation := .mk "AND" [c1_cond_role] []

/-- Second top-level operation of the C1 counterexample (`R`). -/
def c1_op_r : LogicalOperation := .mk "AND" [c1_cond_loc] []

/-- C1 counterexample: for `[Q, R]` with both operations non-`NOT` but
`eval(Q) = ∅`, the engine does *not* return `eval(Q) ∩ eval(R) = ∅`: the
`if not result_devices:` guard in `preview_inventory` sees the empty
accumulator after `Q` and treats `R` as a first operation, so the result is
`eval(R) = {1}`.  This refutes the claim's "[Q, R] yields eval(Q) ∩ eval(R)
... including when eval(Q) is empty". -/
theorem c1_device_set_counterexample :
    py_upper c1_op_q.operation_type ≠ "NOT" ∧
    py_upper c1_op_r.operation_type ≠ "NOT" ∧
    execute_operation c1_env_cx c1_op_q = ∅ ∧
    execute_operation c1_env_cx c1_op_r = {1} ∧
    preview_inventory c1_env_cx [c1_op_q, c1_op_r] = {1} ∧
    preview_inventory c1_env_cx [c1_op_q, c1_op_r] ≠
      execute_operation c1_env_cx c1_op_q ∩ execute_operation c1_env_cx c1_op_r := by
  decide

/-- C1 as amended: for every condition environment, a lone `NOT` yields the
empty set; `[Q, NOT(P)]` yields `eval(Q) ∖ eval(P)` unconditionally; and
`[Q, R]` with both non-`NOT` yields `eval(Q) ∩ eval(R)` whenever `eval(Q)` is
non-empty, while an empty `eval(Q)` makes the engine restart from `R`, giving
`eval(R)`. -/
theorem c1_device_set_toplevel_combination (env : CondEnv)
    (P Q R : LogicalOperation)
    (hP : py_upper P.operation_type = "NOT")
    (hQ : py_upper Q.operation_type ≠ "NOT")
    (hR : py_upper R.operation_type ≠ "NOT") :
    preview_inventory env [P] = ∅ ∧
    preview_inventory env [Q, P] =
      execute_operation env Q \ execute_operation env P ∧
    (execute_operation env Q ≠ ∅ →
      preview_inventory env [Q, R] =
        execute_operation env Q ∩ execute_operation env R) ∧
    (execute_operation env Q = ∅ →
      preview_inventory env [Q, R] = execute_operation env R) := by
  refine ⟨?_, ?_, ?_, ?_⟩
  · simp [preview_inventory, preview_step, hP]
  · by_cases hq : execute_operation env Q = ∅
    · simp [preview_inventory, preview_step, hP, hQ, hq]
    · simp [preview_inventory, preview_step, hP, hQ, hq]
  · intro hq
    simp [preview_inventory, preview_step, hQ, hR, hq]
  · intro hq
    simp [preview_inventory, preview_step, hQ, hR, hq]

/-- Witness environment for the amended C1 theorem. -/
def c1_env_w : CondEnv := fun c =>
  if c = c1_cond_role then {1, 2} else if c = c1_cond_loc then {2, 3} else ∅

/-- A `NOT` operation for the C1 witness. -/
def c1_op_not : LogicalOperation := .mk "NOT" [c1_cond_loc] []

/-- Witness `Q` (non-`NOT`, non-empty evaluation). -/
def c1_op_q_w : LogicalOperation := .mk "AND" [c1_cond_role] []

/-- Witness `R` (an `OR` operation). -/
def c1_op_r_w : LogicalOperation := .mk "OR" [c1_cond_loc] []

/-- C7 counterexample history: a long-lived `set` of value `1` overwritten at
time 5 by a short-lived `set` of value `2` expiring at time 6. -/
def c7_hist_cx : List SetEvent := [⟨0, 1, 1000, 0⟩, ⟨0, 2, 1, 5⟩]

/-- C7 witness history: one `set` of value `7` at time 0 with TTL 5. -/
def c7_hist_w : List SetEvent := [⟨0, 7, 5, 0⟩]

/-- C7 witness store holding an entry for key 0 already expired at time 2. -/
def c7_store_w : CacheStore := fun k => if k = 0 then some ⟨9, 1⟩ else none

/-- C6 counterexample environment: `GIT_SSL_NO_VERIFY` pre-set to `"0"`. -/
def c6_env_cx : SslEnv := ⟨some "0", none, none⟩

/-- The configured HTTPS URL in the C5 instances. -/
def c5_url_cfg : GitUrl := ⟨"https", none, "git.example.com", "/b.git", "", ""⟩

/-- An on-disk `origin` URL differing from the configured one in its path. -/
def c5_url_disk : GitUrl := ⟨"https", some "user:tok", "git.example.com", "/a.git", "", ""⟩

/-- C5 counterexample configuration: HTTPS URL configured, no credentials. -/
def c5_cfg_cx : RepoConfig := ⟨some c5_url_cfg, none, none, none⟩

/-- C5 counterexample disk: the directory opens as a valid repository whose
`origin` URL cannot be read (no `origin` remote). -/
def c5_disk_cx : DiskState := ⟨some ⟨none⟩, true⟩

/-- C5 witness configuration. -/
def c5_cfg_w : RepoConfig := ⟨some c5_url_cfg, none, none, some "main"⟩

/-- C5 witness disk: a working tree whose `origin` mismatches the configured
URL, with a fresh clone available. -/
def c5_disk_w : DiskState := ⟨some ⟨some c5_url_disk⟩, true⟩

/-- The authentication report used in the C3 instances. -/
def c3_info : AuthInfo := ⟨"linux", some "srv-1", some "linux"⟩

/-- C3 counterexample environment: every host answers pings; only credential
`2` is present in the loaded map (credential `1` is absent, as an expired row
filtered out by `list_credentials()` would be) and it authenticates. -/
def c3_env_cx : ScanEnv :=
  { ping_ok := fun _ _ => true
    creds := fun cred_id => if cred_id = 2 then some ⟨"admin"⟩ else none
    decrypt := fun cred_id => if cred_id = 2 then some "pw" else none
    auth := fun _ username password =>
      if username = "admin" ∧ password = "pw" then some c3_info else none
    creds_load_ok := true
    abort_after := none }

/-- C3 counterexample job: credentials supplied in the order `[1, 2]`. -/
def c3_job_cx : ScanJob := (start_job [⟨167772160, 30⟩] [1, 2] "napalm").job

/-- C3 witness environment: host `5` is alive, credentials `1` and `2` are
both present and decryptable, authentication fails for `1` and succeeds for
`2`. -/
def c3_env_w : ScanEnv :=
  { ping_ok := fun ip _ => ip == 5
    creds := fun cred_id =>
      if cred_id = 1 then some ⟨"alice"⟩
      else if cred_id = 2 then some ⟨"bob"⟩ else none
    decrypt := fun cred_id =>
      if cred_id = 1 then some "pw1"
      else if cred_id = 2 then some "pw2" else none
    auth := fun _ username password =>
      if username = "bob" ∧ password = "pw2" then some c3_info else none
    creds_load_ok := true
    abort_after := none }

/-- C3 witness job with credential order `[1, 2]`. -/
def c3_job_w : ScanJob := (start_job [] [1, 2] "napalm").job

/-- C4 witness CIDRs: the same `/32` host supplied twice. -/
def c4_cidrs_w : List Cidr := [⟨167772161, 32⟩, ⟨167772161, 32⟩]

/-- C4 witness environment: the host is alive and credential `1`
authenticates. -/
def c4_env_w : ScanEnv :=
  { ping_ok := fun _ _ => true
    creds := fun cred_id => if cred_id = 1 then some ⟨"admin"⟩ else none
    decrypt := fun cred_id => if cred_id = 1 then some "pw" else none
    auth := fun _ username password =>
      if username = "admin" ∧ password = "pw" then some c3_info else none
    creds_load_ok := true
    abort_after := none }

/-- C8 witness request: one `/22` CIDR, one credential, a valid mode. -/
def c8_req_w : ScanStartRequest := ⟨[⟨167772160, 22⟩], [1], "napalm"⟩

/-! ## Theorems -/

/-! ### C1 — device-set top-level combination -/

/-- Witness discharging the hypotheses of the amended C1 theorem at concrete
operations. -/
theorem c1_device_set_toplevel_combination_witness :
    preview_inventory c1_env_w [c1_op_not] = ∅ ∧
    preview_inventory c1_env_w [c1_op_q_w, c1_op_not] =
      execute_operation c1_env_w c1_op_q_w \ execute_operation c1_env_w c1_op_not ∧
    (execute_operation c1_env_w c1_op_q_w ≠ ∅ →
      preview_inventory c1_env_w [c1_op_q_w, c1_op_r_w] =
        execute_operation c1_env_w c1_op_q_w ∩ execute_operation c1_env_w c1_op_r_w) ∧
    (execute_operation c1_env_w c1_op_q_w = ∅ →
      preview_inventory c1_env_w [c1_op_q_w, c1_op_r_w] =
        execute_operation c1_env_w c1_op_r_w) :=
  c1_device_set_toplevel_combination c1_env_w c1_op_not c1_op_q_w c1_op_r_w
    (by decide) (by decide) (by decide)

/-! ### C7 — cache TTL contract -/

/-- Replaying a history of `set` calls leaves, under each key, exactly the
entry installed by the most recent `set` for that key. -/
lemma run_sets_key (history : List SetEvent) (key : ℕ) :
    run_sets history key
      = (last_set_for history key).map (fun e => CacheEntry.mk e.data e.expires_at) := by
  suffices h : ∀ (s : CacheStore) (acc : Option SetEvent),
      s key = acc.map (fun e => CacheEntry.mk e.data e.expires_at) →
      (history.foldl (fun s e => cache_set s e.key e.data e.ttl_seconds e.now) s) key
        = (history.foldl (fun a e => if e.key = key then some e else a) acc).map
            (fun e => CacheEntry.mk e.data e.expires_at) by
    exact h (fun _ => none) none rfl
  induction history with
  | nil => intro s acc hs; exact hs
  | cons e rest ih =>
    intro s acc hs
    refine ih _ _ ?_
    by_cases hk : e.key = key
    · subst hk
      simp [cache_set, SetEvent.expires_at]
    · have : key ≠ e.key := fun h => hk h.symm
      simp [cache_set, hk, this, hs]

/-- C7 counterexample: with a long-lived `set` overwritten by a short-lived
one, a `get` at time 10 misses, while the claim's "value of the most recent
`set` for `K` whose `expires_at` is strictly greater than `t`" is the
overwritten value `1` — `set` overwrites unconditionally, so an earlier
longer-lived write is never resurrected. -/
theorem c7_cache_counterexample :
    claimed_get c7_hist_cx 0 10 = some 1 ∧
    (cache_get (run_sets c7_hist_cx) 0 10).1 = none ∧
    (cache_get (run_sets c7_hist_cx) 0 10).1 ≠ claimed_get c7_hist_cx 0 10 := by
  decide

/-- C7 as amended: a `get` at time `t` returns the value of the most recent
`set` for the key exactly when that (last) `set` is still live at `t`, and
otherwise misses; and a `get` finding an entry at or past its expiry removes
it from the store. -/
theorem c7_cache_ttl_contract (history : List SetEvent) (key t : ℕ)
    (store : CacheStore) (e : CacheEntry)
    (hst : store key = some e) (hexp : e.expires_at ≤ t) :
    (cache_get (run_sets history) key t).1
      = (last_set_for history key).bind
          (fun ev => if t < ev.expires_at then some ev.data else none) ∧
    (cache_get store key t).1 = none ∧
    (cache_get store key t).2 key = none := by
  refine ⟨?_, ?_, ?_⟩
  · rw [cache_get, run_sets_key]
    rcases last_set_for history key with _ | ev
    · rfl
    · by_cases hlive : t < ev.expires_at
      · simp [hlive]
      · simp [hlive]
  · simp [cache_get, hst, Nat.not_lt.mpr hexp]
  · simp [cache_get, hst, Nat.not_lt.mpr hexp]

/-- Witness for the amended C7 theorem: a live `set` is returned on `get`,
and an expired entry is removed. -/
theorem c7_cache_ttl_contract_witness :
    (cache_get (run_sets c7_hist_w) 0 2).1
      = (last_set_for c7_hist_w 0).bind
          (fun ev => if 2 < ev.expires_at then some ev.data else none) ∧
    (cache_get c7_store_w 0 2).1 = none ∧
    (cache_get c7_store_w 0 2).2 0 = none :=
  c7_cache_ttl_contract c7_hist_w 0 2 c7_store_w ⟨9, 1⟩ (by decide) (by decide)

/-! ### C6 — SSL environment restoration -/

/-- C6 counterexample: with `GIT_SSL_NO_VERIFY` pre-set to `"0"` and
`verify_ssl` false, the push block of `_create_linux_inventory` ends with the
variable deleted, not restored to `"0"`: its `finally:` block runs
`del os.environ["GIT_SSL_NO_VERIFY"]` instead of restoring a snapshot. -/
theorem c6_push_block_counterexample :
    c6_env_cx.git_ssl_no_verify = some "0" ∧
    (push_ssl_block false c6_env_cx).git_ssl_no_verify = none ∧
    push_ssl_block false c6_env_cx ≠ c6_env_cx := by
  decide

/-- C6 as amended: `set_ssl_env` (the scope used by the orchestrator's clone
and pull) restores all three SSL variables to their pre-entry values on every
exit path, for every body, including one that raises or itself rewrites the
environment; the inventory generator's push block instead leaves
`GIT_SSL_NO_VERIFY` untouched when `verify_ssl` is true but unconditionally
*unsets* it when `verify_ssl` is false, and never touches the other two
variables. -/
theorem c6_ssl_env_restoration (repo : SslRepoConfig)
    (body : SslEnv → SslEnv × Bool) (env0 : SslEnv) :
    (set_ssl_env repo body env0).1.git_ssl_no_verify = env0.git_ssl_no_verify ∧
    (set_ssl_env repo body env0).1.git_ssl_ca_info = env0.git_ssl_ca_info ∧
    (set_ssl_env repo body env0).1.git_ssl_cert = env0.git_ssl_cert ∧
    push_ssl_block true env0 = env0 ∧
    push_ssl_block false env0 = { env0 with git_ssl_no_verify := none } :=
  ⟨rfl, rfl, rfl, rfl, rfl⟩

/-! ### C5 — working-tree identity invariant -/

/-- Injecting credentials only touches the userinfo, which normalization
strips, so normalization is invariant under `add_auth_to_url`. -/
lemma normalize_add_auth_to_url (u : GitUrl) (username token : Option String) :
    normalize_git_url (add_auth_to_url u username token) = normalize_git_url u := by
  unfold add_auth_to_url
  by_cases hs : u.scheme = "http" ∨ u.scheme = "https"
  · rcases token with _ | tok
    · simp [hs]
    · simp [hs, normalize_git_url]
  · simp [hs]

/-- C5 counterexample: for an HTTPS-configured repository whose on-disk
working tree opens but has no readable `origin` remote, `open_or_clone`
returns that working tree unchecked — the returned handle has *no* origin URL
normalizing to the configured URL, and no re-clone happened.  The claim's
universal "after open_or_clone returns a handle, the working tree's origin
URL ... equals the configured URL" fails at this input. -/
theorem c5_open_or_clone_counterexample :
    c5_cfg_cx.url = some c5_url_cfg ∧
    open_or_clone c5_cfg_cx c5_disk_cx
      = some { repo := { origin_url := none }, recloned := false } := by
  decide

/-- C5 as amended: whenever `open_or_clone` returns a handle for a repository
with a configured URL, (a) any *readable* origin URL on the returned handle
normalizes to the configured URL (userinfo and query/fragment stripped), and
(b) if the working tree on disk opened with an origin URL whose normalization
mismatches the configured URL, the returned handle came from removing the
directory and cloning afresh.  A handle without a readable origin URL may be
returned unvalidated. -/
theorem c5_open_or_clone_identity (cfg : RepoConfig) (d : DiskState)
    (h : OpenOutcome) (u cu ru : GitUrl) (r : RepoOnDisk)
    (hopen : open_or_clone cfg d = some h)
    (hurl : cfg.url = some u) :
    (h.repo.origin_url = some cu →
      normalize_git_url cu = normalize_git_url u) ∧
    (d.open_result = some r → r.origin_url = some ru →
      normalize_git_url ru ≠ normalize_git_url u → h.recloned = true) := by
  unfold open_or_clone at hopen
  rcases hd : d.open_result with _ | r0 <;> simp only [hd] at hopen
  · -- clone path
    unfold clone_fresh at hopen
    rcases hcs : d.clone_succeeds <;> simp only [hcs] at hopen
    · simp at hopen
    · simp only [if_true] at hopen
      injection hopen with hopen
      subst hopen
      refine ⟨?_, ?_⟩
      · intro hcu
        rw [hurl] at hcu
        simp only [Option.map_some', Option.some.injEq] at hcu
        rw [← hcu, normalize_add_auth_to_url]
      · intro hr
        exact absurd hr (by simp)
  · rw [hurl] at hopen
    rcases hro : r0.origin_url with _ | cu0 <;> simp only [hro] at hopen
    · injection hopen with hopen
      subst hopen
      refine ⟨?_, ?_⟩
      · intro hcu
        rw [hro] at hcu
        exact absurd hcu (by simp)
      · intro hr hru
        injection hr with hr
        rw [← hr, hro] at hru
        exact absurd hru (by simp)
    · by_cases hne : normalize_git_url cu0 = normalize_git_url u
      · rw [if_neg (not_not_intro hne)] at hopen
        injection hopen with hopen
        subst hopen
        refine ⟨?_, ?_⟩
        · intro hcu
          rw [hro] at hcu
          injection hcu with hcu
          rw [← hcu]
          exact hne
        · intro hr hru hmm
          injection hr with hr
          rw [← hr, hro] at hru
          injection hru with hru
          rw [← hru] at hmm
          exact absurd hne hmm
      · rw [if_pos hne] at hopen
        unfold clone_fresh at hopen
        rcases hcs : d.clone_succeeds <;> simp only [hcs] at hopen
        · simp at hopen
        · simp only [if_true] at hopen
          injection hopen with hopen
          subst hopen
          refine ⟨?_, ?_⟩
          · intro hcu
            rw [hurl] at hcu
            simp only [Option.map_some', Option.some.injEq] at hcu
            rw [← hcu, normalize_add_auth_to_url]
          · intro _ _ _
            rfl

/-- Witness for the amended C5 theorem: a mismatching on-disk origin URL
forces a re-clone, whose resulting origin normalizes to the configured URL. -/
theorem c5_open_or_clone_identity_witness :
    (({ repo := { origin_url := some c5_url_cfg }, recloned := true } :
        OpenOutcome).repo.origin_url = some c5_url_cfg →
      normalize_git_url c5_url_cfg = normalize_git_url c5_url_cfg) ∧
    (c5_disk_w.open_result = some { origin_url := some c5_url_disk } →
      ({ origin_url := some c5_url_disk } : RepoOnDisk).origin_url = some c5_url_disk →
      normalize_git_url c5_url_disk ≠ normalize_git_url c5_url_cfg →
      ({ repo := { origin_url := some c5_url_cfg }, recloned := true } :
        OpenOutcome).recloned = true) :=
  c5_open_or_clone_identity c5_cfg_w c5_disk_w
    { repo := { origin_url := some c5_url_cfg }, recloned := true }
    c5_url_cfg c5_url_cfg c5_url_disk { origin_url := some c5_url_disk }
    (by decide) (by decide)

/-! ### C2 — finished-state counter identity -/

/-- Each branch of `_process_ip` bumps `scanned` and exactly one of the
terminal buckets, so the counter identity is preserved. -/
lemma process_ip_counters (env : ScanEnv) (job : ScanJob) (ip : ℕ)
    (h : counters_consistent job) : counters_consistent (process_ip env job ip) := by
  unfold counters_consistent process_ip at *
  by_cases halive : host_alive env ip
  · rcases htc : try_credentials env ip job.credential_ids with _ | ⟨cred_id, info⟩ <;>
      simp [halive, htc] <;> omega
  · simp [halive]
    omega

/-- The counter identity is preserved across any sequence of processed
hosts. -/
lemma foldl_process_counters (env : ScanEnv) (ts : List ℕ) :
    ∀ job : ScanJob, counters_consistent job →
      counters_consistent (ts.foldl (process_ip env) job) := by
  induction ts with
  | nil => intro job h; exact h
  | cons ip ts ih => intro job h; exact ih _ (process_ip_counters env job ip h)

/-- A freshly started job has all counters zero. -/
lemma start_job_counters (cidrs : List Cidr) (credential_ids : List ℕ)
    (mode : String) : counters_consistent (start_job cidrs credential_ids mode).job := by
  simp [counters_consistent, start_job]

/-- C2: for every oracle environment and every order and prefix of the
targets (covering worker-completion orders and runs the supervisor aborts
early), `_run_scan` leaves the job `finished` with
`scanned = authenticated + unreachable + auth_failed + driver_not_supported`. -/
theorem c2_finished_counter_identity (env : ScanEnv) (cidrs : List Cidr)
    (credential_ids : List ℕ) (mode : String) (ts : List ℕ) :
    (run_scan env (start_job cidrs credential_ids mode).job ts).state = "finished" ∧
    counters_consistent (run_scan env (start_job cidrs credential_ids mode).job ts) := by
  rcases hld : env.creds_load_ok
  · refine ⟨by simp [run_scan, hld], ?_⟩
    simp only [run_scan, hld, Bool.false_eq_true, if_false]
    exact start_job_counters cidrs credential_ids mode
  · refine ⟨by simp [run_scan, hld], ?_⟩
    rcases hab : env.abort_after with _ | k <;>
      simp only [run_scan, hld, hab, if_true, Option.isSome_none, Option.isSome_some,
        Bool.false_eq_true, if_false] <;>
      exact foldl_process_counters env _ _ (start_job_counters cidrs credential_ids mode)

/-! ### C10 — `driver_not_supported` is never incremented -/

/-- No branch of `_process_ip` touches `driver_not_supported`. -/
lemma process_ip_driver_not_supported (env : ScanEnv) (job : ScanJob) (ip : ℕ) :
    (process_ip env job ip).driver_not_supported = job.driver_not_supported := by
  unfold process_ip
  by_cases halive : host_alive env ip
  · rcases htc : try_credentials env ip job.credential_ids with _ | ⟨cred_id, info⟩ <;>
      simp [halive, htc]
  · simp [halive]

/-- `driver_not_supported` is unchanged across any sequence of processed
hosts. -/
lemma foldl_driver_not_supported (env : ScanEnv) (ts : List ℕ) :
    ∀ job : ScanJob,
      (ts.foldl (process_ip env) job).driver_not_supported = job.driver_not_supported := by
  induction ts with
  | nil => intro job; rfl
  | cons ip ts ih =>
    intro job
    rw [List.foldl_cons, ih, process_ip_driver_not_supported]

/-- C10: no scan-subsystem operation increments `driver_not_supported`; it is
0 from job creation through the finished state, and the finished-state
counter identity reduces to
`scanned = authenticated + unreachable + auth_failed`. -/
theorem c10_driver_not_supported_zero (env : ScanEnv) (cidrs : List Cidr)
    (credential_ids : List ℕ) (mode : String) (ts : List ℕ)
    (job : ScanJob) (ip : ℕ) :
    (process_ip env job ip).driver_not_supported = job.driver_not_supported ∧
    (start_job cidrs credential_ids mode).job.driver_not_supported = 0 ∧
    (run_scan env (start_job cidrs credential_ids mode).job ts).driver_not_supported = 0 ∧
    (run_scan env (start_job cidrs credential_ids mode).job ts).scanned
      = (run_scan env (start_job cidrs credential_ids mode).job ts).authenticated
        + (run_scan env (start_job cidrs credential_ids mode).job ts).unreachable
        + (run_scan env (start_job cidrs credential_ids mode).job ts).auth_failed := by
  have hz : (run_scan env (start_job cidrs credential_ids mode).job ts).driver_not_supported = 0 := by
    rcases hld : env.creds_load_ok
    · simp [run_scan, hld, start_job]
    · rcases hab : env.abort_after with _ | k <;>
        simp only [run_scan, hld, hab, if_true, Option.isSome_none, Option.isSome_some,
          Bool.false_eq_true, if_false] <;>
        exact (foldl_driver_not_supported env _ _).trans rfl
  have hcc : counters_consistent (run_scan env (start_job cidrs credential_ids mode).job ts) := by
    rcases hld : env.creds_load_ok
    · simp only [run_scan, hld, Bool.false_eq_true, if_false]
      exact start_job_counters cidrs credential_ids mode
    · rcases hab : env.abort_after with _ | k <;>
        simp only [run_scan, hld, hab, if_true, Option.isSome_none, Option.isSome_some,
          Bool.false_eq_true, if_false] <;>
        exact foldl_process_counters env _ _ (start_job_counters cidrs credential_ids mode)
  refine ⟨process_ip_driver_not_supported env job ip, rfl, hz, ?_⟩
  unfold counters_consistent at hcc
  omega

/-! ### C4 — at most one `ScanResult` per ip -/

/-- The dedup step yields a list without duplicates. -/
lemma insert_target_nodup (acc : List ℕ) (ip : ℕ) (h : acc.Nodup) :
    (insert_target acc ip).Nodup := by
  unfold insert_target
  by_cases hm : ip ∈ acc
  · simpa [hm] using h
  · simp [hm, List.nodup_append, h]

/-- Deduplicated insertion of any host list keeps the targets duplicate-free. -/
lemma foldl_insert_nodup (l : List ℕ) :
    ∀ acc : List ℕ, acc.Nodup → (l.foldl insert_target acc).Nodup := by
  induction l with
  | nil => intro acc h; exact h
  | cons ip l ih => intro acc h; exact ih _ (insert_target_nodup acc ip h)

/-- Target expansion never produces a duplicate address, whatever the CIDRs
(overlapping or repeated ones included). -/
lemma expand_cidrs_nodup (cidrs : List Cidr) : (expand_cidrs cidrs).Nodup := by
  suffices h : ∀ (cs : List Cidr) (acc : List ℕ), acc.Nodup →
      (cs.foldl
        (fun acc c =>
          if c.prefixlen < 22 then acc else (host_addresses c).foldl insert_target acc)
        acc).Nodup by
    exact h cidrs [] List.nodup_nil
  intro cs
  induction cs with
  | nil => intro acc h; exact h
  | cons c cs ih =>
    intro acc h
    by_cases hp : c.prefixlen < 22
    · simpa [hp] using ih acc h
    · simpa [hp] using ih _ (foldl_insert_nodup (host_addresses c) acc h)

/-- `_process_ip` leaves the supplied credential order unchanged. -/
lemma process_ip_credential_ids (env : ScanEnv) (job : ScanJob) (ip : ℕ) :
    (process_ip env job ip).credential_ids = job.credential_ids := by
  unfold process_ip
  by_cases halive : host_alive env ip
  · rcases htc : try_credentials env ip job.credential_ids with _ | ⟨cred_id, info⟩ <;>
      simp [halive, htc]
  · simp [halive]

/-- `_process_ip` appends exactly the per-host result, if any. -/
lemma process_ip_results (env : ScanEnv) (job : ScanJob) (ip : ℕ) :
    (process_ip env job ip).results
      = job.results ++ (host_result env job.credential_ids ip).toList := by
  unfold process_ip host_result
  by_cases halive : host_alive env ip
  · rcases htc : try_credentials env ip job.credential_ids with _ | ⟨cred_id, info⟩ <;>
      simp [halive, htc]
  · simp [halive]

/-- Folding the host workers accumulates exactly one optional result per
target. -/
lemma foldl_process_results (env : ScanEnv) (ts : List ℕ) :
    ∀ job : ScanJob,
      (ts.foldl (process_ip env) job).results
        = job.results ++ ts.filterMap (host_result env job.credential_ids) := by
  induction ts with
  | nil => intro job; simp
  | cons ip ts ih =>
    intro job
    rw [List.foldl_cons, ih, process_ip_results, process_ip_credential_ids]
    rcases hres : host_result env job.credential_ids ip with _ | r <;>
      simp [hres, List.filterMap_cons]

/-- A per-host result carries the ip it was produced for. -/
lemma host_result_ip (env : ScanEnv) (ids : List ℕ) (ip : ℕ) (r : ScanResult)
    (h : host_result env ids ip = some r) : r.ip = ip := by
  unfold host_result at h
  by_cases halive : host_alive env ip
  · rw [if_pos halive] at h
    rcases htc : try_credentials env ip ids with _ | p <;> rw [htc] at h
    · exact absurd h (by simp)
    · injection h with h
      rw [← h]
      rfl
  · rw [if_neg halive] at h
    exact absurd h (by simp)

/-- Hosts outside the target list contribute no result for that ip. -/
lemma filterMap_host_count_zero (env : ScanEnv) (ids : List ℕ) (x : ℕ) :
    ∀ ts : List ℕ, x ∉ ts →
      (ts.filterMap (host_result env ids)).countP (fun r => r.ip == x) = 0 := by
  intro ts
  induction ts with
  | nil => intro _; simp
  | cons a ts ih =>
    intro hx
    have hxa : x ≠ a := fun hh => hx (by simp [hh])
    have hxts : x ∉ ts := fun hh => hx (List.mem_cons_of_mem a hh)
    rcases hres : host_result env ids a with _ | r
    · simpa [List.filterMap_cons, hres] using ih hxts
    · have hip := host_result_ip env ids a r hres
      have hne : (r.ip == x) = false := by
        simp only [hip, beq_eq_false_iff_ne]
        exact fun hh => hxa hh.symm
      simp [List.filterMap_cons, hres, List.countP_cons, hne, ih hxts]

/-- Over a duplicate-free target list, at most one produced result matches a
given ip. -/
lemma filterMap_host_count_le_one (env : ScanEnv) (ids : List ℕ) (x : ℕ) :
    ∀ ts : List ℕ, ts.Nodup →
      (ts.filterMap (host_result env ids)).countP (fun r => r.ip == x) ≤ 1 := by
  intro ts
  induction ts with
  | nil => intro _; simp
  | cons a ts ih =>
    intro hnd
    obtain ⟨ha, hts⟩ := List.nodup_cons.mp hnd
    rcases hres : host_result env ids a with _ | r
    · simpa [List.filterMap_cons, hres] using ih hts
    · have hip := host_result_ip env ids a r hres
      by_cases hax : a = x
      · subst hax
        have h0 := filterMap_host_count_zero env ids a ts ha
        simp only [List.filterMap_cons, hres, List.countP_cons, h0, Nat.zero_add]
        split <;> simp
      · have hne : (r.ip == x) = false := by
          simp only [hip, beq_eq_false_iff_ne]
          exact hax
        simp only [List.filterMap_cons, hres, List.countP_cons, hne, if_false]
        simpa using ih hts

/-- C4: over the targets produced by `start_job` — the same address supplied
through several CIDRs is deduplicated — and for any completion order and any
abort point, a finished job holds at most one `ScanResult` per ip. -/
theorem c4_one_result_per_ip (env : ScanEnv) (cidrs : List Cidr)
    (credential_ids : List ℕ) (mode : String) (ts : List ℕ) (ip : ℕ)
    (hperm : ts.Perm (start_job cidrs credential_ids mode).targets) :
    ((run_scan env (start_job cidrs credential_ids mode).job ts).results.countP
      (fun r => r.ip == ip)) ≤ 1 := by
  have htg : (start_job cidrs credential_ids mode).targets = expand_cidrs cidrs := rfl
  have hnd : ts.Nodup := by
    rw [List.Perm.nodup_iff hperm, htg]
    exact expand_cidrs_nodup cidrs
  rcases hld : env.creds_load_ok
  · simp [run_scan, hld, start_job]
  · rcases hab : env.abort_after with _ | k <;>
      simp only [run_scan, hld, hab, if_true, Option.isSome_none, Option.isSome_some,
        Bool.false_eq_true, if_false]
    · show ((ts.take ts.length).foldl (process_ip env)
          (start_job cidrs credential_ids mode).job).results.countP
            (fun r => r.ip == ip) ≤ 1
      rw [foldl_process_results]
      simp only [start_job, List.nil_append]
      exact filterMap_host_count_le_one env credential_ids ip _
        ((List.take_sublist _ _).nodup hnd)
    · show ((ts.take (min k ts.length)).foldl (process_ip env)
          (start_job cidrs credential_ids mode).job).results.countP
            (fun r => r.ip == ip) ≤ 1
      rw [foldl_process_results]
      simp only [start_job, List.nil_append]
      exact filterMap_host_count_le_one env credential_ids ip _
        ((List.take_sublist _ _).nodup hnd)


/-- Witness for C4: the same `/32` host supplied through two CIDRs yields a
single target and a single result. -/
theorem c4_one_result_per_ip_witness :
    ((run_scan c4_env_w (start_job c4_cidrs_w [1] "napalm").job
        (start_job c4_cidrs_w [1] "napalm").targets).results.countP
      (fun r => r.ip == 167772161)) ≤ 1 :=
  c4_one_result_per_ip c4_env_w c4_cidrs_w [1] "napalm"
    (start_job c4_cidrs_w [1] "napalm").targets 167772161 (List.Perm.refl _)

/-! ### C3 — credential order per host -/

/-- The credential loop returns the first credential that actually
authenticates: everything before it in the supplied order was either skipped
(absent from the loaded map, or failed decryption) or attempted and refused. -/
lemma try_credentials_first_success (env : ScanEnv) (ip : ℕ) :
    ∀ (ids : List ℕ) (B : ℕ) (info : AuthInfo),
      try_credentials env ip ids = some (B, info) →
      ∃ l1 l2, ids = l1 ++ B :: l2 ∧
        (∀ A ∈ l1, cred_skipped env A ∨ cred_attempt_result env ip A = none) ∧
        ¬cred_skipped env B ∧ cred_attempt_result env ip B = some info := by
  intro ids
  induction ids with
  | nil =>
    intro B info h
    simp [try_credentials, try_credentials_trace] at h
  | cons cred_id rest ih =>
    intro B info h
    unfold try_credentials try_credentials_trace at h
    rcases hc : env.creds cred_id with _ | cred <;> simp only [hc] at h
    · obtain ⟨l1, l2, hsplit, hall, hB⟩ := ih B info h
      refine ⟨cred_id :: l1, l2, by simp [hsplit], ?_, hB⟩
      intro A hA
      rcases List.mem_cons.mp hA with rfl | hA
      · exact Or.inl (Or.inl hc)
      · exact hall A hA
    · rcases hd : env.decrypt cred_id with _ | password <;> simp only [hd] at h
      · obtain ⟨l1, l2, hsplit, hall, hB⟩ := ih B info h
        refine ⟨cred_id :: l1, l2, by simp [hsplit], ?_, hB⟩
        intro A hA
        rcases List.mem_cons.mp hA with rfl | hA
        · exact Or.inl (Or.inr hd)
        · exact hall A hA
      · rcases ha : env.auth ip cred.username password with _ | info0 <;> simp only [ha] at h
        · replace h : try_credentials env ip rest = some (B, info) := h
          obtain ⟨l1, l2, hsplit, hall, hB⟩ := ih B info h
          refine ⟨cred_id :: l1, l2, by simp [hsplit], ?_, hB⟩
          intro A hA
          rcases List.mem_cons.mp hA with rfl | hA
          · exact Or.inr (by simp [cred_attempt_result, hc, hd, ha])
          · exact hall A hA
        · simp only [Prod.mk.injEq, Option.some.injEq, Prod.mk.injEq] at h
          obtain ⟨rfl, rfl⟩ := h
          refine ⟨[], rest, rfl, by simp, ?_, ?_⟩
          · simp [cred_skipped, hc, hd]
          · simp [cred_attempt_result, hc, hd, ha]

/-- C3 counterexample: credentials supplied in order `[1, 2]`, the recorded
`ScanResult` carries `credential_id = 2`, yet credential `1` was never
attempted against the host — it is absent from the loaded credential map
(exactly what happens to an expired credential, which `list_credentials()`
filters out), so the loop `continue`s past it without an authentication
attempt.  This refutes "every credential supplied before B in the list was
attempted against that IP and failed". -/
theorem c3_credential_order_counterexample :
    (process_ip c3_env_cx c3_job_cx 5).results = [mk_scan_result 5 2 c3_info] ∧
    (try_credentials_trace c3_env_cx 5 [1, 2]).2 = [2] ∧
    1 ∉ (try_credentials_trace c3_env_cx 5 [1, 2]).2 := by
  decide

/-- C3 as amended: when a host worker records `credential_id = B`, every
credential before `B` in the supplied order was either attempted against that
host and refused, or skipped without an attempt (absent from the loaded map —
e.g. expired — or failing decryption); `B` itself was attempted and accepted;
exactly one result is appended and `authenticated` is bumped once; and no
credential at all is attempted for a host whose liveness check failed
(liveness strictly precedes credential trials). -/
theorem c3_credential_order (env : ScanEnv) (job : ScanJob) (ip ip2 B : ℕ)
    (info : AuthInfo)
    (halive : host_alive env ip = true)
    (hres : try_credentials env ip job.credential_ids = some (B, info)) :
    (∃ l1 l2, job.credential_ids = l1 ++ B :: l2 ∧
      (∀ A ∈ l1, cred_skipped env A ∨ cred_attempt_result env ip A = none) ∧
      ¬cred_skipped env B ∧ cred_attempt_result env ip B = some info) ∧
    (process_ip env job ip).results = job.results ++ [mk_scan_result ip B info] ∧
    (process_ip env job ip).authenticated = job.authenticated + 1 ∧
    (host_alive env ip2 = false → process_ip_attempts env job ip2 = []) := by
  refine ⟨try_credentials_first_success env ip job.credential_ids B info hres, ?_, ?_, ?_⟩
  · simp [process_ip, halive, hres]
  · simp [process_ip, halive, hres]
  · intro hdead
    simp [process_ip_attempts, hdead]

/-- Witness for the amended C3 theorem: host `5` accepts credential `2` after
credential `1` was attempted and refused; host `7` fails liveness and no
credential is attempted for it. -/
theorem c3_credential_order_witness :
    (∃ l1 l2, c3_job_w.credential_ids = l1 ++ 2 :: l2 ∧
      (∀ A ∈ l1, cred_skipped c3_env_w A ∨ cred_attempt_result c3_env_w 5 A = none) ∧
      ¬cred_skipped c3_env_w 2 ∧ cred_attempt_result c3_env_w 5 2 = some c3_info) ∧
    (process_ip c3_env_w c3_job_w 5).results
      = c3_job_w.results ++ [mk_scan_result 5 2 c3_info] ∧
    (process_ip c3_env_w c3_job_w 5).authenticated = c3_job_w.authenticated + 1 ∧
    (host_alive c3_env_w 7 = false → process_ip_attempts c3_env_w c3_job_w 7 = []) :=
  c3_credential_order c3_env_w c3_job_w 5 7 2 c3_info (by decide) (by decide)

/-! ### C8 — scan-start validation -/

/-- A CIDR below the `/22` floor anywhere in the list makes the validator
loop fail. -/
lemma validate_cidrs_go_error_of_bad :
    ∀ (v cleaned : List Cidr), (∃ c ∈ v, c.prefixlen < 22) →
      ∃ e, validate_cidrs_go v cleaned = .error e := by
  intro v
  induction v with
  | nil =>
    intro cleaned h
    rcases h with ⟨c, hc, _⟩
    exact absurd hc (List.not_mem_nil c)
  | cons c rest ih =>
    intro cleaned h
    unfold validate_cidrs_go
    by_cases h1 : 32 < c.prefixlen ∨ 2 ^ 32 ≤ c.addr
    · exact ⟨_, by rw [if_pos h1]⟩
    · rw [if_neg h1]
      by_cases h2 : c.prefixlen < 22
      · exact ⟨_, by rw [if_pos h2]⟩
      · rw [if_neg h2]
        apply ih
        rcases h with ⟨c', hc', hbad⟩
        rcases List.mem_cons.mp hc' with rfl | hmem
        · exact absurd hbad h2
        · exact ⟨c', hmem, hbad⟩

/-- A list of well-formed CIDRs all at or above the `/22` floor passes the
validator loop. -/
lemma validate_cidrs_go_ok_of_good :
    ∀ (v cleaned : List Cidr),
      (∀ c ∈ v, 22 ≤ c.prefixlen ∧ c.prefixlen ≤ 32 ∧ c.addr < 2 ^ 32) →
      ∃ out, validate_cidrs_go v cleaned = .ok out := by
  intro v
  induction v with
  | nil => intro cleaned _; exact ⟨cleaned, rfl⟩
  | cons c rest ih =>
    intro cleaned h
    obtain ⟨h22, h32, haddr⟩ := h c (List.mem_cons_self c rest)
    unfold validate_cidrs_go
    rw [if_neg (by push_neg; exact ⟨h32, haddr⟩), if_neg (by omega)]
    exact ih _ (fun c' hc' => h c' (List.mem_cons_of_mem c hc'))

/-- C8: a scan start request with any CIDR below `/22` or an empty credential
list is rejected with a validation error and no job is registered; a
well-formed request (at most 10 parseable CIDRs, all at or above `/22`, a
non-empty credential list and a known discovery mode) is accepted. -/
theorem c8_scan_start_validation (jobs : List ScanJob) (r : ScanStartRequest) :
    ((∃ c ∈ r.cidrs, c.prefixlen < 22) ∨ r.credential_ids = [] →
      ∃ e, scan_start_endpoint jobs r = (jobs, .error e)) ∧
    (r.cidrs ≠ [] → r.cidrs.length ≤ 10 →
      (∀ c ∈ r.cidrs, 22 ≤ c.prefixlen ∧ c.prefixlen ≤ 32 ∧ c.addr < 2 ^ 32) →
      r.credential_ids ≠ [] →
      (r.discovery_mode = "napalm" ∨ r.discovery_mode = "ssh-login") →
      ∃ out, (scan_start_endpoint jobs r).2 = .ok out) := by
  constructor
  · intro h
    unfold scan_start_endpoint validate_scan_start_request
    by_cases hlen : 10 < r.cidrs.length
    · exact ⟨_, by rw [if_pos hlen]⟩
    · rw [if_neg hlen]
      rcases hdm : validate_discovery_mode r.discovery_mode with e | m
      · exact ⟨e, rfl⟩
      · rcases h with hbad | hcreds
        · have hemp : r.cidrs.isEmpty = false := by
            rcases hbad with ⟨c, hc, _⟩
            rcases hcl : r.cidrs with _ | ⟨c0, cs⟩
            · rw [hcl] at hc
              exact absurd hc (List.not_mem_nil c)
            · rfl
          obtain ⟨e, he⟩ := validate_cidrs_go_error_of_bad r.cidrs [] hbad
          unfold validate_cidrs
          rw [hemp]
          simp only [Bool.false_eq_true, if_false, he]
          exact ⟨e, rfl⟩
        · rcases hvc : validate_cidrs r.cidrs with e | cs
          · exact ⟨e, rfl⟩
          · unfold validate_credential_ids
            rw [hcreds]
            simp only [List.isEmpty_nil, if_true]
            exact ⟨_, rfl⟩
  · intro hne hlen hgood hcred hmode
    unfold scan_start_endpoint validate_scan_start_request
    rw [if_neg (not_lt.mpr hlen)]
    have hdm : validate_discovery_mode r.discovery_mode = .ok r.discovery_mode := by
      unfold validate_discovery_mode
      rw [if_pos hmode]
    rw [hdm]
    have hemp : r.cidrs.isEmpty = false := by
      rcases hcl : r.cidrs with _ | ⟨c0, cs⟩
      · exact absurd hcl hne
      · rfl
    obtain ⟨cs, hcs⟩ := validate_cidrs_go_ok_of_good r.cidrs [] hgood
    unfold validate_cidrs
    rw [hemp]
    simp only [Bool.false_eq_true, if_false, hcs]
    have hcemp : r.credential_ids.isEmpty = false := by
      rcases hcl : r.credential_ids with _ | ⟨i0, is0⟩
      · exact absurd hcl hcred
      · rfl
    unfold validate_credential_ids
    rw [hcemp]
    simp only [Bool.false_eq_true, if_false]
    exact ⟨_, rfl⟩

/-- Witness for C8 at a concrete well-formed request with a single `/22`
CIDR. -/
theorem c8_scan_start_validation_witness :
    ((∃ c ∈ c8_req_w.cidrs, c.prefixlen < 22) ∨ c8_req_w.credential_ids = [] →
      ∃ e, scan_start_endpoint [] c8_req_w = ([], .error e)) ∧
    (c8_req_w.cidrs ≠ [] → c8_req_w.cidrs.length ≤ 10 →
      (∀ c ∈ c8_req_w.cidrs, 22 ≤ c.prefixlen ∧ c.prefixlen ≤ 32 ∧ c.addr < 2 ^ 32) →
      c8_req_w.credential_ids ≠ [] →
      (c8_req_w.discovery_mode = "napalm" ∨ c8_req_w.discovery_mode = "ssh-login") →
      ∃ out, (scan_start_endpoint [] c8_req_w).2 = .ok out) :=
  c8_scan_start_validation [] c8_req_w

/-! ### C9 — bounded worker-pool concurrency -/

/-- C9: in every state the scan job's worker pool can reach, at most
`MAX_CONCURRENCY = 10` host workers hold a semaphore permit — i.e. execute
`_process_ip` — simultaneously, and `start_job` spawns exactly one background
supervisor task. -/
theorem c9_worker_pool_bound (cidrs : List Cidr) (credential_ids : List ℕ)
    (mode : String) (n : ℕ) (s : PoolState)
    (hreach : PoolReachable n s) :
    s.running ≤ MAX_CONCURRENCY ∧
    (start_job cidrs credential_ids mode).supervisors = 1 := by
  refine ⟨?_, rfl⟩
  induction hreach with
  | init => simp [MAX_CONCURRENCY]
  | step s t hr hstep ih =>
    cases hstep with
    | acquire hw hsem => exact hsem
    | release hrun =>
      simp only []
      omega

/-- Witness for C9 at the initial pool state of a 42-target job. -/
theorem c9_worker_pool_bound_witness :
    (⟨42, 0, 0⟩ : PoolState).running ≤ MAX_CONCURRENCY ∧
    (start_job [] [] "napalm").supervisors = 1 :=
  c9_worker_pool_bound [] [] "napalm" 42 ⟨42, 0, 0⟩ PoolReachable.init

end Cockpit
